import Mathlib

/-!
Shallow embedding of the playback coordination protocol of the
ai-audio-player extension.  The controller lives in
src/background/background.ts (class AudioManager); the playback engine in
src/background/offscreen.ts (class OffscreenAudioPlayer).  Every
definition below is translated directly from those sources: JS numbers are
modelled as rationals, JS truthiness of a string is emptiness, JS
truthiness of a number is being nonzero, and the asynchronous sends to the
engine are modelled as an emitted command list, with a Boolean parameter
recording whether the one send that the source wraps in try/catch (the
play command) succeeds.
-/

/-- Track record, from interface AudioTrack in background.ts. -/
structure AudioTrack where
  id : String
  name : String
  url : String
  durationHint : Option ℚ
deriving Repr, DecidableEq

/-- Canonical controller state, from interface AudioState in background.ts. -/
structure AudioState where
  isPlaying : Bool
  currentTrack : Option String
  currentTime : ℚ
  duration : ℚ
  playlist : List AudioTrack
  currentIndex : Int
  volume : ℚ
deriving Repr, DecidableEq

/-- Default state of the AudioManager field initializer in background.ts. -/
def initialState : AudioState :=
  { isPlaying := false
    currentTrack := none
    currentTime := 0
    duration := 0
    playlist := []
    currentIndex := -1
    volume := 1 }

/-- Commands the controller sends to the offscreen engine. -/
inductive EngineCmd where
  | playAudio (url : String)
  | pauseAudio
  | stopAudio
  | seekAudio (time : ℚ)
  | setVolumeCmd (volume : ℚ)
deriving Repr, DecidableEq

/-- JS remainder: sign of the dividend (the percent operator of background.ts). -/
def jsMod (a b : Int) : Int :=
  if a < 0 then -((-a) % b) else a % b

/-- JS falsy-number fallback x || d, for rationals (no NaN in the model). -/
def jsOr (x d : ℚ) : ℚ :=
  if x = 0 then d else x

/-- AudioManager.stop: send STOP_AUDIO, clear the playing flag, rewind. -/
def stop (s : AudioState) : AudioState × List EngineCmd :=
  ({ s with isPlaying := false, currentTime := 0 }, [EngineCmd.stopAudio])

/-- AudioManager.pause: send PAUSE_AUDIO, clear the playing flag. -/
def pause (s : AudioState) : AudioState × List EngineCmd :=
  ({ s with isPlaying := false }, [EngineCmd.pauseAudio])

/-- AudioManager.seek: send SEEK_AUDIO, optimistically set currentTime. -/
def seek (s : AudioState) (time : ℚ) : AudioState × List EngineCmd :=
  ({ s with currentTime := time }, [EngineCmd.seekAudio time])

/-- AudioManager.setVolume: forward the raw value and store it verbatim. -/
def setVolume (s : AudioState) (volume : ℚ) : AudioState × List EngineCmd :=
  ({ s with volume := volume }, [EngineCmd.setVolumeCmd volume])

/-- AudioManager.addTrack: push, and select index 0 when nothing was selected. -/
def addTrack (s : AudioState) (track : AudioTrack) : AudioState :=
  let s1 := { s with playlist := s.playlist ++ [track] }
  if s1.currentIndex = -1 then { s1 with currentIndex := 0 } else s1

/-- AudioManager.play: when a selected track with a nonempty url exists,
send PLAY_AUDIO; on send success set the optimistic playing flag, on send
failure the catch block only clears the flag (the exception is absorbed);
with no valid selection and a nonempty guard the flag is cleared. -/
def play (s : AudioState) (sendOk : Bool) : AudioState × List EngineCmd :=
  if 0 ≤ s.currentIndex ∧ 0 < s.playlist.length then
    match s.playlist[s.currentIndex.toNat]? with
    | some track =>
      if track.url ≠ "" then
        if sendOk then
          ({ s with isPlaying := true, currentTrack := some track.url },
            [EngineCmd.playAudio track.url])
        else
          ({ s with isPlaying := false }, [EngineCmd.playAudio track.url])
      else
        ({ s with isPlaying := false }, [])
    | none => ({ s with isPlaying := false }, [])
  else (s, [])

/-- AudioManager.removeTrack: findIndex by id; if present splice it out,
clamp currentIndex only when it fell out of bounds, and on an emptied
playlist reset the selection and stop. -/
def removeTrack (s : AudioState) (trackId : String) : AudioState × List EngineCmd :=
  match s.playlist.findIdx? (fun t => t.id == trackId) with
  | none => (s, [])
  | some i =>
    let pl := s.playlist.eraseIdx i
    let ci :=
      if (pl.length : Int) ≤ s.currentIndex then max 0 ((pl.length : Int) - 1)
      else s.currentIndex
    if pl.length = 0 then
      stop { s with playlist := pl, currentIndex := -1 }
    else ({ s with playlist := pl, currentIndex := ci }, [])

/-- AudioManager.setCurrentTrack: findIndex by id; if present, stop, move
the selection, and replay when playback was in progress. -/
def setCurrentTrack (s : AudioState) (trackId : String) (sendOk : Bool) :
    AudioState × List EngineCmd :=
  match s.playlist.findIdx? (fun t => t.id == trackId) with
  | none => (s, [])
  | some i =>
    let wasPlaying := s.isPlaying
    let r1 := stop s
    let s2 := { r1.1 with currentIndex := (i : Int) }
    if wasPlaying then
      let r2 := play s2 sendOk
      (r2.1, r1.2 ++ r2.2)
    else (s2, r1.2)

/-- AudioManager.nextTrack: cyclic successor with stop-then-replay. -/
def nextTrack (s : AudioState) (sendOk : Bool) : AudioState × List EngineCmd :=
  if s.playlist.length = 0 then (s, [])
  else
    let nextIndex := jsMod (s.currentIndex + 1) (s.playlist.length : Int)
    let wasPlaying := s.isPlaying
    let r1 := stop s
    let s2 := { r1.1 with currentIndex := nextIndex }
    if wasPlaying then
      let r2 := play s2 sendOk
      (r2.1, r1.2 ++ r2.2)
    else (s2, r1.2)

/-- AudioManager.previousTrack: cyclic predecessor with stop-then-replay. -/
def previousTrack (s : AudioState) (sendOk : Bool) : AudioState × List EngineCmd :=
  if s.playlist.length = 0 then (s, [])
  else
    let p0 := s.currentIndex - 1
    let prevIndex := if p0 < 0 then (s.playlist.length : Int) - 1 else p0
    let wasPlaying := s.isPlaying
    let r1 := stop s
    let s2 := { r1.1 with currentIndex := prevIndex }
    if wasPlaying then
      let r2 := play s2 sendOk
      (r2.1, r1.2 ++ r2.2)
    else (s2, r1.2)

/-- Engine device snapshot, from OffscreenAudioPlayer.getAudioState. -/
structure EngineSnapshot where
  currentTime : ℚ
  duration : ℚ
  volume : ℚ
  paused : Bool
  ended : Bool
  src : String
deriving Repr, DecidableEq

/-- AudioManager.handleAudioStateUpdate: merge a device snapshot using the
JS falsy-fallback operator on each numeric field and derive the playing
flag from the device pause/ended flags. -/
def handleAudioStateUpdate (s : AudioState) (snap : Option EngineSnapshot) : AudioState :=
  match snap with
  | none => s
  | some a =>
    { s with
      currentTime := jsOr a.currentTime 0
      duration := jsOr a.duration 0
      volume := jsOr a.volume 1
      isPlaying := !a.paused && !a.ended }

/-- AudioManager.handleTrackEnded: stop and rewind, then auto-advance when
a successor index exists. -/
def handleTrackEnded (s : AudioState) (sendOk : Bool) : AudioState × List EngineCmd :=
  let s1 := { s with isPlaying := false, currentTime := 0 }
  if s1.currentIndex < (s1.playlist.length : Int) - 1 then nextTrack s1 sendOk
  else (s1, [])

/-- OffscreenAudioPlayer.setVolume: the engine clamps the received volume
to the unit interval before applying it to the device. -/
def engineSetVolume (volume : ℚ) : ℚ :=
  max 0 (min 1 volume)

/-- The clamp function named by the spec. -/
def clamp01 (v : ℚ) : ℚ :=
  max 0 (min 1 v)

/-- The response value passed to sendResponse in background.ts. -/
inductive Response where
  | stateResp (st : AudioState)
  | successOnly
  | successWithState (st : AudioState)
deriving Repr, DecidableEq

/-- Observable effects of one handleMessage turn: engine commands,
the response, the storage write, the badge update and the broadcast. -/
inductive Effect where
  | engine (cmd : EngineCmd)
  | respond (r : Response)
  | persist (st : AudioState)
  | badge (playing : Bool)
  | broadcast (st : AudioState)
deriving Repr, DecidableEq

/-- The message taxonomy dispatched by AudioManager.handleMessage. -/
inductive Message where
  | play
  | pause
  | stop
  | seek (time : ℚ)
  | setVolumeMsg (volume : ℚ)
  | addTrackMsg (track : AudioTrack)
  | removeTrackMsg (trackId : String)
  | setCurrentTrackMsg (trackId : String)
  | nextTrackMsg
  | previousTrackMsg
  | getState
  | audioStateUpdate (snap : Option EngineSnapshot)
  | trackEnded
  | audioError (err : String)
  | unknownMsg (action : String)
deriving Repr, DecidableEq

/-- Lift engine commands into the effect trace. -/
def toEffects (r : AudioState × List EngineCmd) : AudioState × List Effect :=
  (r.1, r.2.map Effect.engine)

/-- The switch body of handleMessage for the cases that fall through to
the common tail (every case except GET_STATE and AUDIO_STATE_UPDATE). -/
def intentStep (s : AudioState) (m : Message) (sendOk : Bool) : AudioState × List Effect :=
  match m with
  | Message.play => toEffects (play s sendOk)
  | Message.pause => toEffects (pause s)
  | Message.stop => toEffects (stop s)
  | Message.seek t => toEffects (seek s t)
  | Message.setVolumeMsg v => toEffects (setVolume s v)
  | Message.addTrackMsg t => (addTrack s t, [])
  | Message.removeTrackMsg tid => toEffects (removeTrack s tid)
  | Message.setCurrentTrackMsg tid => toEffects (setCurrentTrack s tid sendOk)
  | Message.nextTrackMsg => toEffects (nextTrack s sendOk)
  | Message.previousTrackMsg => toEffects (previousTrack s sendOk)
  | Message.trackEnded => toEffects (handleTrackEnded s sendOk)
  | Message.audioError _ =>
      ({ s with isPlaying := false }, [Effect.broadcast { s with isPlaying := false }])
  | Message.unknownMsg _ => (s, [])
  | Message.getState => (s, [])
  | Message.audioStateUpdate _ => (s, [])

/-- The common tail of handleMessage: sendResponse with the state, then
saveState, updateBadge and broadcastStateUpdate. -/
def finishTurn (r : AudioState × List Effect) : AudioState × List Effect :=
  (r.1, r.2 ++
    [Effect.respond (Response.successWithState r.1),
     Effect.persist r.1,
     Effect.badge r.1.isPlaying,
     Effect.broadcast r.1])

/-- AudioManager.handleMessage: GET_STATE responds with the state and
returns early; AUDIO_STATE_UPDATE merges, broadcasts, responds and returns
early; every other action runs its case and then the common tail. -/
def handleMessage (s : AudioState) (m : Message) (sendOk : Bool) : AudioState × List Effect :=
  match m with
  | Message.getState => (s, [Effect.respond (Response.stateResp s)])
  | Message.audioStateUpdate snap =>
      let s2 := handleAudioStateUpdate s snap
      (s2, [Effect.broadcast s2, Effect.respond Response.successOnly])
  | m => finishTurn (intentStep s m sendOk)

/-- Whether an effect trace contains a storage write. -/
def tracePersists : List Effect → Bool
  | [] => false
  | Effect.persist _ :: _ => true
  | _ :: es => tracePersists es

/-- Whether an effect trace contains a state broadcast. -/
def traceBroadcasts : List Effect → Bool
  | [] => false
  | Effect.broadcast _ :: _ => true
  | _ :: es => traceBroadcasts es

/-- Example track with id a. -/
def trkA : AudioTrack := { id := "a", name := "A", url := "ua", durationHint := none }

/-- Example track with id b. -/
def trkB : AudioTrack := { id := "b", name := "B", url := "ub", durationHint := none }

/-- Example track with id c. -/
def trkC : AudioTrack := { id := "c", name := "C", url := "uc", durationHint := none }

/-- One-track state selecting index 0. -/
def exState1 : AudioState :=
  { initialState with playlist := [trkA], currentIndex := 0 }

/-- Two-track state playing the track at index 0. -/
def exPlaying2 : AudioState :=
  { initialState with playlist := [trkA, trkB], currentIndex := 0, isPlaying := true }

/-- Two-track state at the last index. -/
def exLast2 : AudioState :=
  { initialState with playlist := [trkA, trkB], currentIndex := 1 }

/-- Three-track state selecting index 1. -/
def exState3 : AudioState :=
  { initialState with playlist := [trkA, trkB, trkC], currentIndex := 1 }

/-- An engine snapshot with an ordinary volume. -/
def snapHalf : EngineSnapshot :=
  { currentTime := 5, duration := 10, volume := 1/2, paused := false, ended := false, src := "u" }

/-- An engine snapshot whose device volume is 0 (muted). -/
def snapMuted : EngineSnapshot :=
  { currentTime := 5, duration := 10, volume := 0, paused := true, ended := false, src := "u" }

/-- Claim C1 is false on the code: SET_VOLUME(2) stores volume 2 in the
controller state, forwards the raw 2 to the engine, and the persisted
state carries volume 2, outside the unit interval, while clamp(2,0,1) = 1. -/
theorem C1_counterexample :
    (setVolume initialState 2).1.volume = 2 ∧
    (setVolume initialState 2).2 = [EngineCmd.setVolumeCmd 2] ∧
    clamp01 2 = 1 ∧
    ¬ (setVolume initialState 2).1.volume ≤ 1 ∧
    Effect.persist { initialState with volume := 2 } ∈
      (handleMessage initialState (Message.setVolumeMsg 2) true).2 := by
  refine ⟨rfl, rfl, by decide, by decide, ?_⟩
  simp [handleMessage, finishTurn, intentStep, toEffects, setVolume]

/-- Claim C1 (amended): the controller stores and forwards SET_VOLUME
values verbatim without clamping; the clamp to the unit interval happens
only inside the engine when the value is applied to the device, so the
device volume equals clamp(v,0,1) while the stored volume equals v. -/
theorem C1_amended (s : AudioState) (v : ℚ) :
    (setVolume s v).1.volume = v ∧
    (setVolume s v).2 = [EngineCmd.setVolumeCmd v] ∧
    engineSetVolume v = clamp01 v :=
  ⟨rfl, rfl, rfl⟩

/-- The falsy fallback with default 0 is the identity on rationals. -/
theorem jsOr_zero (x : ℚ) : jsOr x 0 = x := by
  unfold jsOr
  split <;> simp_all

/-- Claim C5 is false on the code: a snapshot with device volume 0 is not
merged verbatim; the falsy fallback replaces it with 1. -/
theorem C5_counterexample :
    snapMuted.volume = 0 ∧
    (handleAudioStateUpdate initialState (some snapMuted)).volume = 1 ∧
    (handleAudioStateUpdate initialState (some snapMuted)).volume ≠ snapMuted.volume := by
  decide

/-- Claim C5 (amended): merging an engine snapshot copies currentTime and
duration verbatim, copies volume verbatim except that a snapshot volume of
0 is replaced by 1, and derives isPlaying from the device flags as the
conjunction of not paused and not ended. -/
theorem C5_amended (s : AudioState) (a : EngineSnapshot) :
    (handleAudioStateUpdate s (some a)).currentTime = a.currentTime ∧
    (handleAudioStateUpdate s (some a)).duration = a.duration ∧
    (handleAudioStateUpdate s (some a)).volume =
      (if a.volume = 0 then 1 else a.volume) ∧
    (handleAudioStateUpdate s (some a)).isPlaying = (!a.paused && !a.ended) := by
  refine ⟨?_, ?_, rfl, rfl⟩ <;> simp [handleAudioStateUpdate, jsOr_zero]

/-- Claim C10: GET_STATE is a pure query; the state is returned unchanged
as the response, and the turn performs no persistence write, no broadcast
and no engine command. -/
theorem C10_getState (s : AudioState) (ok : Bool) :
    (handleMessage s Message.getState ok).1 = s ∧
    (handleMessage s Message.getState ok).2 = [Effect.respond (Response.stateResp s)] ∧
    tracePersists (handleMessage s Message.getState ok).2 = false ∧
    traceBroadcasts (handleMessage s Message.getState ok).2 = false :=
  ⟨rfl, rfl, rfl, rfl⟩

/-- Branch equation for removeTrack on an absent id. -/
theorem removeTrack_of_none (s : AudioState) (tid : String)
    (h : s.playlist.findIdx? (fun t => t.id == tid) = none) :
    removeTrack s tid = (s, []) := by
  simp only [removeTrack, h]

/-- Branch equation for removeTrack when the removal empties the playlist. -/
theorem removeTrack_emptied (s : AudioState) (tid : String) (i : Nat)
    (h : s.playlist.findIdx? (fun t => t.id == tid) = some i)
    (hz : (s.playlist.eraseIdx i).length = 0) :
    removeTrack s tid =
      ({ s with playlist := s.playlist.eraseIdx i, currentIndex := -1,
                isPlaying := false, currentTime := 0 }, [EngineCmd.stopAudio]) := by
  simp only [removeTrack, h, if_pos hz, stop]

/-- Branch equation for removeTrack when tracks remain after the removal. -/
theorem removeTrack_remaining (s : AudioState) (tid : String) (i : Nat)
    (h : s.playlist.findIdx? (fun t => t.id == tid) = some i)
    (hz : ¬ (s.playlist.eraseIdx i).length = 0) :
    removeTrack s tid =
      ({ s with playlist := s.playlist.eraseIdx i,
                currentIndex :=
                  if ((s.playlist.eraseIdx i).length : Int) ≤ s.currentIndex
                  then max 0 (((s.playlist.eraseIdx i).length : Int) - 1)
                  else s.currentIndex }, []) := by
  simp only [removeTrack, h, if_neg hz]

/-- Claim C2 is false on the code: in the three-track state with
currentIndex 1, removing the track at index 0 (which is ≤ currentIndex)
leaves currentIndex at 1 instead of decrementing it to 0, so the selection
no longer points at the same logical neighbor. -/
theorem C2_counterexample :
    exState3.playlist.findIdx? (fun t => t.id == "a") = some 0 ∧
    (0 : Int) ≤ exState3.currentIndex ∧
    (removeTrack exState3 "a").1.playlist.length = 2 ∧
    (removeTrack exState3 "a").1.currentIndex = 1 ∧
    ¬ (removeTrack exState3 "a").1.currentIndex = exState3.currentIndex - 1 := by
  decide

/-- Claim C2 (amended): REMOVE_TRACK of an absent id is a no-op; of a
present id it removes exactly that entry, and currentIndex is adjusted
only when it fell out of bounds (new length ≤ currentIndex), in which case
it is clamped to the last index, otherwise it is left unchanged; when the
playlist empties, currentIndex becomes -1 and a STOP is issued. -/
theorem C2_amended (s : AudioState) (tid : String) :
    (s.playlist.findIdx? (fun t => t.id == tid) = none → removeTrack s tid = (s, [])) ∧
    (∀ i, s.playlist.findIdx? (fun t => t.id == tid) = some i →
      (removeTrack s tid).1.playlist = s.playlist.eraseIdx i ∧
      ((s.playlist.eraseIdx i).length = 0 →
          (removeTrack s tid).1.currentIndex = -1 ∧
          (removeTrack s tid).1.isPlaying = false ∧
          (removeTrack s tid).2 = [EngineCmd.stopAudio]) ∧
      (0 < (s.playlist.eraseIdx i).length →
          (removeTrack s tid).2 = [] ∧
          (removeTrack s tid).1.currentIndex =
            (if ((s.playlist.eraseIdx i).length : Int) ≤ s.currentIndex
             then ((s.playlist.eraseIdx i).length : Int) - 1
             else s.currentIndex))) := by
  constructor
  · intro h
    exact removeTrack_of_none s tid h
  · intro i h
    by_cases hz : (s.playlist.eraseIdx i).length = 0
    · rw [removeTrack_emptied s tid i h hz]
      exact ⟨rfl, fun _ => ⟨rfl, rfl, rfl⟩, fun hc => absurd hz (by omega)⟩
    · rw [removeTrack_remaining s tid i h hz]
      refine ⟨rfl, fun hc => absurd hc hz, fun _ => ⟨rfl, ?_⟩⟩
      have hlen : 0 < (s.playlist.eraseIdx i).length := Nat.pos_of_ne_zero hz
      by_cases hle : ((s.playlist.eraseIdx i).length : Int) ≤ s.currentIndex
      · simp only [if_pos hle]
        omega
      · simp only [if_neg hle]

/-- Witness for C2 (amended) at concrete inputs: an absent id is a no-op,
and removing the head of the three-track state keeps currentIndex where
the in-bounds branch of the amended claim puts it. -/
theorem C2_amended_witness :
    removeTrack exState3 "zz" = (exState3, []) ∧
    (removeTrack exState3 "a").1.playlist = exState3.playlist.eraseIdx 0 ∧
    (removeTrack exState3 "a").2 = [] ∧
    (removeTrack exState3 "a").1.currentIndex =
      (if ((exState3.playlist.eraseIdx 0).length : Int) ≤ exState3.currentIndex
       then ((exState3.playlist.eraseIdx 0).length : Int) - 1
       else exState3.currentIndex) :=
  ⟨(C2_amended exState3 "zz").1 (by decide),
   ((C2_amended exState3 "a").2 0 (by decide)).1,
   (((C2_amended exState3 "a").2 0 (by decide)).2.2 (by decide)).1,
   (((C2_amended exState3 "a").2 0 (by decide)).2.2 (by decide)).2⟩

/-- Claim C3 is false on the code: removing the currently selected track
while playing, with another track remaining, leaves isPlaying true and
issues no stop command (the engine keeps playing the removed track). -/
theorem C3_counterexample :
    exPlaying2.isPlaying = true ∧
    exPlaying2.playlist.findIdx? (fun t => t.id == "a") = some 0 ∧
    exPlaying2.currentIndex = 0 ∧
    (removeTrack exPlaying2 "a").1.isPlaying = true ∧
    (removeTrack exPlaying2 "a").2 = [] := by
  decide

/-- Claim C3 (amended): removing the track at currentIndex while playing
stops playback only when the playlist becomes empty; when tracks remain,
the playing flag stays true and no stop command is sent to the engine. -/
theorem C3_amended (s : AudioState) (tid : String) (i : Nat)
    (h : s.playlist.findIdx? (fun t => t.id == tid) = some i)
    (hcur : (i : Int) = s.currentIndex)
    (hplay : s.isPlaying = true) :
    (0 < (s.playlist.eraseIdx i).length →
       (removeTrack s tid).1.isPlaying = true ∧ (removeTrack s tid).2 = []) ∧
    ((s.playlist.eraseIdx i).length = 0 →
       (removeTrack s tid).1.isPlaying = false ∧
       (removeTrack s tid).2 = [EngineCmd.stopAudio]) := by
  constructor
  · intro hlen
    have hz : ¬ (s.playlist.eraseIdx i).length = 0 := by omega
    rw [removeTrack_remaining s tid i h hz]
    exact ⟨hplay, rfl⟩
  · intro hz
    rw [removeTrack_emptied s tid i h hz]
    exact ⟨rfl, rfl⟩

/-- Witness for C3 (amended): in the two-track playing state, removing the
selected head track leaves isPlaying true and sends nothing. -/
theorem C3_amended_witness :
    (removeTrack exPlaying2 "a").1.isPlaying = true ∧
    (removeTrack exPlaying2 "a").2 = [] :=
  (C3_amended exPlaying2 "a" 0 (by decide) (by decide) (by decide)).1 (by decide)

/-- Claim C4 is false on the code: the AUDIO_STATE_UPDATE report returns
before the common tail of handleMessage, so its turn broadcasts the merged
state but never persists it. -/
theorem C4_counterexample :
    traceBroadcasts (handleMessage initialState
      (Message.audioStateUpdate (some snapHalf)) true).2 = true ∧
    tracePersists (handleMessage initialState
      (Message.audioStateUpdate (some snapHalf)) true).2 = false := by
  decide

/-- Claim C4 (amended): every action that falls through the switch to the
common tail (everything except GET_STATE and AUDIO_STATE_UPDATE) persists
the resulting canonical state and broadcasts it; AUDIO_STATE_UPDATE only
broadcasts the merged state without persisting; GET_STATE does neither. -/
theorem C4_amended (s : AudioState) (m : Message) (ok : Bool) :
    (m ≠ Message.getState → (∀ snap, m ≠ Message.audioStateUpdate snap) →
       Effect.persist (handleMessage s m ok).1 ∈ (handleMessage s m ok).2 ∧
       Effect.broadcast (handleMessage s m ok).1 ∈ (handleMessage s m ok).2) ∧
    (∀ snap,
       Effect.broadcast (handleMessage s (Message.audioStateUpdate snap) ok).1 ∈
         (handleMessage s (Message.audioStateUpdate snap) ok).2 ∧
       tracePersists (handleMessage s (Message.audioStateUpdate snap) ok).2 = false) ∧
    (tracePersists (handleMessage s Message.getState ok).2 = false ∧
     traceBroadcasts (handleMessage s Message.getState ok).2 = false) := by
  refine ⟨?_, ?_, rfl, rfl⟩
  · intro hg ha
    cases m with
    | getState => exact absurd rfl hg
    | audioStateUpdate snap => exact absurd rfl (ha snap)
    | _ =>
      constructor <;>
        simp [handleMessage, finishTurn, List.mem_append]
  · intro snap
    exact ⟨by simp [handleMessage], rfl⟩

/-- Witness for C4 (amended): a PAUSE turn persists and broadcasts the
resulting state. -/
theorem C4_amended_witness :
    Effect.persist (handleMessage initialState Message.pause true).1 ∈
      (handleMessage initialState Message.pause true).2 ∧
    Effect.broadcast (handleMessage initialState Message.pause true).1 ∈
      (handleMessage initialState Message.pause true).2 :=
  (C4_amended initialState Message.pause true).1 (by decide) (fun snap => by simp)

/-- Index-consistency invariant, items 1 and 2 of the data-model section:
no selection exactly on an empty playlist, an in-bounds selection
otherwise. -/
def indexInvariant (s : AudioState) : Prop :=
  (s.currentIndex = -1 ↔ s.playlist = []) ∧
  (s.playlist ≠ [] → 0 ≤ s.currentIndex ∧ s.currentIndex < (s.playlist.length : Int))

/-- One structural playlist intent: ADD_TRACK or REMOVE_TRACK. -/
inductive PlaylistOp where
  | add (track : AudioTrack)
  | remove (trackId : String)
deriving Repr, DecidableEq

/-- Apply one structural intent to the controller state. -/
def applyOp (s : AudioState) : PlaylistOp → AudioState
  | PlaylistOp.add t => addTrack s t
  | PlaylistOp.remove tid => (removeTrack s tid).1

/-- Apply a sequence of structural intents from left to right. -/
def runOps (s : AudioState) : List PlaylistOp → AudioState
  | [] => s
  | op :: rest => runOps (applyOp s op) rest

/-- addTrack preserves the index-consistency invariant. -/
theorem addTrack_invariant (s : AudioState) (t : AudioTrack)
    (hs : indexInvariant s) : indexInvariant (addTrack s t) := by
  obtain ⟨hiff, hbound⟩ := hs
  by_cases hci : s.currentIndex = -1
  · have heq : addTrack s t = { s with playlist := s.playlist ++ [t], currentIndex := 0 } := by
      simp [addTrack, hci]
    rw [heq]
    constructor
    · simp
    · intro _
      refine ⟨le_refl 0, ?_⟩
      have hpos : 0 < (s.playlist ++ [t]).length := by simp
      show (0 : Int) < ((s.playlist ++ [t]).length : Int)
      exact_mod_cast hpos
  · have heq : addTrack s t = { s with playlist := s.playlist ++ [t] } := by
      simp [addTrack, hci]
    rw [heq]
    have hple : s.playlist ≠ [] := fun hnil => hci (hiff.mpr hnil)
    obtain ⟨h0, hlt⟩ := hbound hple
    constructor
    · constructor
      · intro hc
        exact absurd hc hci
      · intro hc
        simp at hc
    · intro _
      refine ⟨h0, ?_⟩
      have hl : (s.playlist ++ [t]).length = s.playlist.length + 1 := by simp
      rw [hl]
      push_cast
      omega

/-- removeTrack preserves the index-consistency invariant. -/
theorem removeTrack_invariant (s : AudioState) (tid : String)
    (hs : indexInvariant s) : indexInvariant (removeTrack s tid).1 := by
  obtain ⟨hiff, hbound⟩ := hs
  cases hf : s.playlist.findIdx? (fun t => t.id == tid) with
  | none =>
    rw [removeTrack_of_none s tid hf]
    exact ⟨hiff, hbound⟩
  | some i =>
    have hi : i < s.playlist.length :=
      (List.findIdx?_eq_some_iff_findIdx_eq.mp hf).1
    have hlen : (s.playlist.eraseIdx i).length = s.playlist.length - 1 :=
      List.length_eraseIdx_of_lt hi
    have hpl_ne : s.playlist ≠ [] := by
      intro hnil
      rw [hnil] at hi
      simp at hi
    obtain ⟨hci0, hcilt⟩ := hbound hpl_ne
    by_cases hz : (s.playlist.eraseIdx i).length = 0
    · rw [removeTrack_emptied s tid i hf hz]
      have herased : s.playlist.eraseIdx i = [] := List.length_eq_zero.mp hz
      constructor
      · simp [herased]
      · intro hne
        exact absurd herased hne
    · rw [removeTrack_remaining s tid i hf hz]
      have hne2 : s.playlist.eraseIdx i ≠ [] := by
        intro hnil
        rw [hnil] at hz
        simp at hz
      constructor
      · constructor
        · intro hc
          exfalso
          have hc2 : (if ((s.playlist.eraseIdx i).length : Int) ≤ s.currentIndex
              then max 0 (((s.playlist.eraseIdx i).length : Int) - 1)
              else s.currentIndex) = -1 := hc
          split at hc2 <;> omega
        · intro hc
          exact absurd hc hne2
      · intro _
        have hgoal : 0 ≤ (if ((s.playlist.eraseIdx i).length : Int) ≤ s.currentIndex
              then max 0 (((s.playlist.eraseIdx i).length : Int) - 1)
              else s.currentIndex) ∧
            (if ((s.playlist.eraseIdx i).length : Int) ≤ s.currentIndex
              then max 0 (((s.playlist.eraseIdx i).length : Int) - 1)
              else s.currentIndex) < ((s.playlist.eraseIdx i).length : Int) := by
          split <;> omega
        exact hgoal

/-- The invariant holds for the whole run of any intent sequence. -/
theorem runOps_invariant (ops : List PlaylistOp) (s : AudioState)
    (hs : indexInvariant s) : indexInvariant (runOps s ops) := by
  induction ops generalizing s with
  | nil => exact hs
  | cons op rest ih =>
    cases op with
    | add t => exact ih _ (addTrack_invariant s t hs)
    | remove tid => exact ih _ (removeTrack_invariant s tid hs)

/-- Claim C6: for every sequence of ADD_TRACK / REMOVE_TRACK intents
applied to the default initial state, the state after every step (every
prefix of the sequence) has currentIndex = -1 exactly on the empty
playlist, and an in-bounds currentIndex on a nonempty playlist. -/
theorem C6_indexInvariant (ops : List PlaylistOp) :
    indexInvariant (runOps initialState ops) :=
  runOps_invariant ops initialState
    ⟨by simp [initialState], fun h => absurd rfl h⟩

/-- Claim C7 is false on the code: addTrack performs no duplicate check,
so adding a track whose id is already present yields a playlist with a
repeated id. -/
theorem C7_counterexample :
    ¬ ((addTrack (addTrack initialState trkA) trkA).playlist.map
        (fun u => u.id)).Nodup := by
  decide

/-- Claim C7 (amended): addTrack appends unconditionally; distinctness of
playlist ids is preserved only when the added id is not already present,
and is a caller obligation, not a controller guarantee. -/
theorem C7_amended (s : AudioState) (t : AudioTrack)
    (hnd : (s.playlist.map (fun u => u.id)).Nodup)
    (hfresh : ∀ u ∈ s.playlist, u.id ≠ t.id) :
    (addTrack s t).playlist = s.playlist ++ [t] ∧
    ((addTrack s t).playlist.map (fun u => u.id)).Nodup := by
  have hpl : (addTrack s t).playlist = s.playlist ++ [t] := by
    by_cases hci : s.currentIndex = -1 <;> simp [addTrack, hci]
  refine ⟨hpl, ?_⟩
  rw [hpl, List.map_append, List.nodup_append]
  refine ⟨hnd, List.nodup_singleton _, ?_⟩
  intro a ha hb
  rw [List.mem_map] at ha
  obtain ⟨u, hu, hua⟩ := ha
  rw [List.map_singleton, List.mem_singleton] at hb
  exact hfresh u hu (hua.trans hb)

/-- Witness for C7 (amended): adding a fresh id to the one-track state
keeps the ids pairwise distinct. -/
theorem C7_amended_witness :
    (addTrack exState1 trkB).playlist = exState1.playlist ++ [trkB] ∧
    ((addTrack exState1 trkB).playlist.map (fun u => u.id)).Nodup :=
  C7_amended exState1 trkB (by decide) (by decide)

/-- Branch equation for nextTrack when playback is not in progress: stop,
move the selection to the cyclic successor, and do not replay. -/
theorem nextTrack_of_not_playing (s : AudioState) (ok : Bool)
    (hp : s.isPlaying = false) (hne : ¬ s.playlist.length = 0) :
    nextTrack s ok =
      ({ s with isPlaying := false, currentTime := 0,
                currentIndex := jsMod (s.currentIndex + 1) (s.playlist.length : Int) },
       [EngineCmd.stopAudio]) := by
  simp [nextTrack, hne, hp, stop]

/-- Branch equation for handleTrackEnded when a successor index exists. -/
theorem handleTrackEnded_succ (s : AudioState) (ok : Bool)
    (h2 : s.currentIndex < (s.playlist.length : Int) - 1) :
    handleTrackEnded s ok =
      nextTrack { s with isPlaying := false, currentTime := 0 } ok := by
  simp only [handleTrackEnded]
  rw [if_pos h2]

/-- Claim C8: TRACK_ENDED with a successor index present advances the
selection by exactly one (the JS modulo is the identity there) and leaves
the state stopped and rewound with the playlist untouched; TRACK_ENDED at
the last index (or with no selection possible) keeps currentIndex where it
was, stopped and rewound, with no wraparound to index 0. -/
theorem C8_trackEnded (s : AudioState) (ok : Bool) :
    (-1 ≤ s.currentIndex → s.currentIndex < (s.playlist.length : Int) - 1 →
      (handleTrackEnded s ok).1.currentIndex = s.currentIndex + 1 ∧
      (handleTrackEnded s ok).1.isPlaying = false ∧
      (handleTrackEnded s ok).1.currentTime = 0 ∧
      (handleTrackEnded s ok).1.playlist = s.playlist) ∧
    (s.currentIndex = (s.playlist.length : Int) - 1 →
      (handleTrackEnded s ok).1.currentIndex = s.currentIndex ∧
      (handleTrackEnded s ok).1.isPlaying = false ∧
      (handleTrackEnded s ok).1.currentTime = 0 ∧
      (handleTrackEnded s ok).1.playlist = s.playlist) := by
  constructor
  · intro h1 h2
    have hne : ¬ s.playlist.length = 0 := by omega
    rw [handleTrackEnded_succ s ok h2,
        nextTrack_of_not_playing { s with isPlaying := false, currentTime := 0 } ok rfl hne]
    refine ⟨?_, rfl, rfl, rfl⟩
    show jsMod (s.currentIndex + 1) (s.playlist.length : Int) = s.currentIndex + 1
    unfold jsMod
    rw [if_neg (by omega)]
    exact Int.emod_eq_of_lt (by omega) (by omega)
  · intro hlast
    have hnc : ¬ (s.currentIndex < (s.playlist.length : Int) - 1) := by omega
    simp only [handleTrackEnded]
    rw [if_neg hnc]
    exact ⟨rfl, rfl, rfl, rfl⟩

/-- Witness for C8 at concrete inputs: ending the middle track of the
three-track state advances to index 2; ending the last track of the
two-track state stays at index 1 with playback stopped. -/
theorem C8_trackEnded_witness :
    ((handleTrackEnded exState3 true).1.currentIndex = exState3.currentIndex + 1 ∧
     (handleTrackEnded exState3 true).1.isPlaying = false ∧
     (handleTrackEnded exState3 true).1.currentTime = 0 ∧
     (handleTrackEnded exState3 true).1.playlist = exState3.playlist) ∧
    ((handleTrackEnded exLast2 true).1.currentIndex = exLast2.currentIndex ∧
     (handleTrackEnded exLast2 true).1.isPlaying = false ∧
     (handleTrackEnded exLast2 true).1.currentTime = 0 ∧
     (handleTrackEnded exLast2 true).1.playlist = exLast2.playlist) :=
  ⟨(C8_trackEnded exState3 true).1 (by decide) (by decide),
   (C8_trackEnded exLast2 true).2 (by decide)⟩

/-- Claim C9: play forwards PLAY_AUDIO with the selected track url exactly
when a selected track with a nonempty url exists; on send success the
playing flag is set optimistically and the current track recorded; on send
failure the catch block only clears the playing flag, so the failure is
absorbed into state and the result is still an ordinary state (no
exception reaches the caller of the total function play). -/
theorem C9_play (s : AudioState) (ok : Bool) :
    (∀ track, 0 ≤ s.currentIndex →
      s.playlist[s.currentIndex.toNat]? = some track → track.url ≠ "" →
      (play s ok).2 = [EngineCmd.playAudio track.url] ∧
      (ok = true →
        (play s ok).1 = { s with isPlaying := true, currentTrack := some track.url }) ∧
      (ok = false → (play s ok).1 = { s with isPlaying := false })) ∧
    ((play s ok).2 ≠ [] →
      0 ≤ s.currentIndex ∧
      ∃ track, s.playlist[s.currentIndex.toNat]? = some track ∧ track.url ≠ "") := by
  constructor
  · intro track h0 hget hurl
    have hlen : 0 < s.playlist.length := by
      obtain ⟨hlt, _⟩ := List.getElem?_eq_some_iff.mp hget
      omega
    have hc : 0 ≤ s.currentIndex ∧ 0 < s.playlist.length := ⟨h0, hlen⟩
    simp only [play, if_pos hc, hget]
    rw [if_pos hurl]
    cases ok with
    | true =>
      exact ⟨rfl, fun _ => rfl, fun h => Bool.noConfusion h⟩
    | false =>
      exact ⟨rfl, fun h => Bool.noConfusion h, fun _ => rfl⟩
  · intro hne
    by_cases hc : 0 ≤ s.currentIndex ∧ 0 < s.playlist.length
    · refine ⟨hc.1, ?_⟩
      cases hget : s.playlist[s.currentIndex.toNat]? with
      | none =>
        exfalso
        apply hne
        simp only [play, if_pos hc, hget]
      | some track =>
        by_cases hurl : track.url ≠ ""
        · exact ⟨track, rfl, hurl⟩
        · exfalso
          apply hne
          simp only [play, if_pos hc, hget]
          rw [if_neg hurl]
    · exfalso
      apply hne
      simp only [play, if_neg hc]

/-- Witness for C9 at the one-track state: on success the command carries
the track url and the state goes to playing; on failure the flag is
cleared instead, with the command attempt still recorded. -/
theorem C9_play_witness :
    (play exState1 true).2 = [EngineCmd.playAudio trkA.url] ∧
    (play exState1 true).1 =
      { exState1 with isPlaying := true, currentTrack := some trkA.url } ∧
    (play exState1 false).1 = { exState1 with isPlaying := false } :=
  ⟨((C9_play exState1 true).1 trkA (by decide) (by decide) (by decide)).1,
   ((C9_play exState1 true).1 trkA (by decide) (by decide) (by decide)).2.1 rfl,
   ((C9_play exState1 false).1 trkA (by decide) (by decide) (by decide)).2.2 rfl⟩
